import Mathlib

/-!
Shallow embedding of the document sync controller of the XION todo demo app
(the module init guards and the functions fetchTodos, toggleTodo, deleteTodo,
addTodo and retryOperation of app/(tabs)/index.tsx, plus the init guards of
profile.tsx and settings.tsx).

Remote calls are modelled by their observable results: a mutation call is an
`Except Unit Unit` (error = the promise rejected), a listing query is an
`Except Unit QueryResponse` (error = the query threw).  JSON deserialization
of a stored payload is modelled by `Option TodoData` (`none` = `JSON.parse`
throws on that payload).  `new Date(s).getTime()` is modelled by an abstract
function `getTime : String → Int` over which theorems quantify.
-/

/-- The parsed shape of a stored todo payload (the fields read off the result
of `JSON.parse(doc.data)`). -/
structure TodoData where
  title : String
  text : String
  completed : Bool
  created_at : String
deriving Repr, DecidableEq

/-- The Todo record built by fetchTodos: `{id, title, text, completed,
created_at}`. -/
structure Todo where
  id : String
  title : String
  text : String
  completed : Bool
  created_at : String
deriving Repr, DecidableEq

/-- The `{total, completed, pending}` summary state.  JS numbers can go
negative on the delete path, so the fields are integers. -/
structure TodoSummary where
  total : Int
  completed : Int
  pending : Int
deriving Repr, DecidableEq

def emptySummary : TodoSummary := ⟨0, 0, 0⟩

/-- The record constructor inside the `response.documents.map` callback. -/
def mkTodo (id : String) (d : TodoData) : Todo :=
  ⟨id, d.title, d.text, d.completed, d.created_at⟩

/-- One `(id, doc)` pair of the remote listing; the second component is the
result of deserializing `doc.data` (`none` when `JSON.parse` would throw). -/
abbrev RemoteDoc := String × Option TodoData

/-- The value of `response?.documents`: `none` models a response without a
`documents` field. -/
abbrev QueryResponse := Option (List RemoteDoc)

/-- The `response.documents.map(...)` step of fetchTodos.  `JSON.parse` throws
at the first malformed payload, aborting the whole mapping; the exception then
reaches the outer catch of fetchTodos. -/
def parseDocs : List RemoteDoc → Option (List Todo)
  | [] => some []
  | (id, pd) :: rest =>
    match pd with
    | none => none
    | some d =>
      match parseDocs rest with
      | none => none
      | some ts => some (mkTodo id d :: ts)

/-- The sort comparator of fetchTodos: `dateB - dateA`, i.e. descending by
`new Date(created_at).getTime()`.  `a` sorts no later than `b` when the time
of `a` is at least the time of `b`. -/
def byCreatedDesc (getTime : String → Int) (a b : Todo) : Prop :=
  getTime b.created_at ≤ getTime a.created_at

instance (getTime : String → Int) : DecidableRel (byCreatedDesc getTime) :=
  fun a b => Int.decLe (getTime b.created_at) (getTime a.created_at)

/-- fetchTodos: query the listing; on a `documents` field, deserialize each
payload, sort by created_at descending (JS `Array.prototype.sort` is stable;
`List.insertionSort` with a reflexive total preorder is the stable sort), and
set the cache and summary.  A missing `documents` field, a thrown query, or a
`JSON.parse` exception inside the map all clear the cache and zero the
summary (the latter via the surrounding catch). -/
def fetchTodos (getTime : String → Int) (queryResult : Except Unit QueryResponse) :
    List Todo × TodoSummary :=
  match queryResult with
  | .error _ => ([], emptySummary)
  | .ok none => ([], emptySummary)
  | .ok (some docs) =>
    match parseDocs docs with
    | none => ([], emptySummary)
    | some todosList =>
      let sortedTodos := List.insertionSort (byCreatedDesc getTime) todosList
      let completed := (sortedTodos.filter (fun t => t.completed)).length
      (sortedTodos,
       ⟨(sortedTodos.length : Int), (completed : Int),
        (sortedTodos.length : Int) - (completed : Int)⟩)

/-- Helper: a listing whose payloads all parse deserializes to the evident
todo list. -/
theorem parseDocs_all_ok (docs : List (String × TodoData)) :
    parseDocs (docs.map (fun p => (p.1, some p.2))) =
      some (docs.map (fun p => mkTodo p.1 p.2)) := by
  induction docs with
  | nil => rfl
  | cons h t ih => simp [parseDocs, ih]

/-- Helper: a listing with any malformed payload makes the whole mapping
throw. -/
theorem parseDocs_has_malformed (docs : List RemoteDoc)
    (h : ∃ p ∈ docs, p.2 = none) : parseDocs docs = none := by
  induction docs with
  | nil => simp at h
  | cons hd t ih =>
    obtain ⟨p, hp, hpn⟩ := h
    rcases List.mem_cons.1 hp with rfl | hmem
    · obtain ⟨i, pd⟩ := p
      cases pd with
      | none => rfl
      | some d => simp at hpn
    · obtain ⟨i, pd⟩ := hd
      cases pd with
      | none => rfl
      | some d => simp [parseDocs, ih ⟨p, hmem, hpn⟩]

/-- C6: when the listing query throws, or the response lacks a documents
field, or the identity has no documents, fetchTodos yields an empty cache and
a zeroed summary to its caller rather than an error. -/
theorem fetchTodos_failure_empty (getTime : String → Int) :
    fetchTodos getTime (.error ()) = ([], emptySummary) ∧
    fetchTodos getTime (.ok none) = ([], emptySummary) ∧
    fetchTodos getTime (.ok (some [])) = ([], emptySummary) := by
  refine ⟨rfl, rfl, ?_⟩
  simp [fetchTodos, parseDocs, emptySummary]

/-- C1: a successful refresh whose payloads all parse places in the cache
exactly the listed documents, each deserialized into its Todo record, in an
order sorted by created_at descending (equal timestamps unconstrained). -/
theorem fetchTodos_refresh_exact (getTime : String → Int)
    (docs : List (String × TodoData)) :
    (fetchTodos getTime (.ok (some (docs.map (fun p => (p.1, some p.2)))))).1.Perm
        (docs.map (fun p => mkTodo p.1 p.2)) ∧
    (fetchTodos getTime (.ok (some (docs.map (fun p => (p.1, some p.2)))))).1.Sorted
        (byCreatedDesc getTime) := by
  haveI : IsTotal Todo (byCreatedDesc getTime) :=
    ⟨fun a b => (le_total (getTime b.created_at) (getTime a.created_at)).imp id id⟩
  haveI : IsTrans Todo (byCreatedDesc getTime) :=
    ⟨fun a b c hab hbc => le_trans hbc hab⟩
  simp only [fetchTodos, parseDocs_all_ok]
  exact ⟨List.perm_insertionSort _ _, List.sorted_insertionSort _ _⟩

def c2GoodData : TodoData := ⟨"buy milk", "buy milk", false, "2024-01-01T00:00:00Z"⟩

/-- C2 fails on the code: with one parseable and one malformed document in the
listing, refresh drops the parseable document too — the whole cache becomes
empty, because the `JSON.parse` exception aborts the entire map and lands in
the catch that clears all state. -/
theorem fetchTodos_drops_parseable :
    (fetchTodos (fun _ => 0) (.ok (some [("1", some c2GoodData), ("2", none)]))).1 = [] ∧
    mkTodo "1" c2GoodData ∉
      (fetchTodos (fun _ => 0) (.ok (some [("1", some c2GoodData), ("2", none)]))).1 := by
  constructor
  · rfl
  · simp [fetchTodos, parseDocs, c2GoodData]

/-- C2 amended: when any document in the listing has a malformed payload,
fetchTodos drops the entire listing (cache empty, summary zero) but still
returns to its caller without throwing. -/
theorem fetchTodos_any_malformed_empties (getTime : String → Int)
    (docs : List RemoteDoc) (h : ∃ p ∈ docs, p.2 = none) :
    fetchTodos getTime (.ok (some docs)) = ([], emptySummary) := by
  simp [fetchTodos, parseDocs_has_malformed docs h]

theorem fetchTodos_any_malformed_empties_witness :
    fetchTodos (fun _ => 0) (.ok (some [("9", none)])) = ([], emptySummary) :=
  fetchTodos_any_malformed_empties (fun _ => 0) [("9", none)]
    ⟨("9", none), by simp, rfl⟩

/-- Result state of a toggle or delete: the new cache and summary plus whether
the error alert was shown to the user. -/
structure MutationOutcome where
  todos : List Todo
  summary : TodoSummary
  errorSurfaced : Bool
deriving Repr, DecidableEq

/-- The `updatedTodo` built by toggleTodo: the document with its completed
flag flipped. -/
def updatedTodoOf (todo : Todo) : Todo := { todo with completed := !todo.completed }

/-- toggleTodo: execute the Update mutation; on success, immediately rewrite
the cache entry whose id matches and recompute the summary; on a thrown
mutation, alert the user and leave cache and summary untouched. -/
def toggleTodo (todos : List Todo) (summary : TodoSummary) (todo : Todo)
    (executeResult : Except Unit Unit) : MutationOutcome :=
  match executeResult with
  | .error _ => ⟨todos, summary, true⟩
  | .ok _ =>
    let updatedTodo := updatedTodoOf todo
    let newTodos := todos.map (fun t => if t.id == todo.id then updatedTodo else t)
    let completed :=
      (todos.filter (fun t =>
        if t.id == todo.id then updatedTodo.completed else t.completed)).length
    ⟨newTodos,
     ⟨(todos.length : Int), (completed : Int),
      (todos.length : Int) - (completed : Int)⟩,
     false⟩

/-- deleteTodo: execute the Delete mutation; on success, drop the matching id
from the cache and recompute the summary (the code decrements total by one
unconditionally); on a thrown mutation, alert and leave state untouched. -/
def deleteTodo (todos : List Todo) (summary : TodoSummary) (todoId : String)
    (executeResult : Except Unit Unit) : MutationOutcome :=
  match executeResult with
  | .error _ => ⟨todos, summary, true⟩
  | .ok _ =>
    let newTodos := todos.filter (fun t => t.id != todoId)
    let completed := (todos.filter (fun t => t.id != todoId && t.completed)).length
    ⟨newTodos,
     ⟨(todos.length : Int) - 1, (completed : Int),
      (todos.length : Int) - 1 - (completed : Int)⟩,
     false⟩

/-- C4: when the Update mutation returns success, the cache entry for the
toggled id holds the fully updated document immediately (no refresh
involved), and no error is surfaced. -/
theorem toggleTodo_optimistic (todos : List Todo) (summary : TodoSummary)
    (todo : Todo) (h : todo.id ∈ todos.map Todo.id) :
    updatedTodoOf todo ∈ (toggleTodo todos summary todo (.ok ())).todos ∧
    (∀ t ∈ (toggleTodo todos summary todo (.ok ())).todos,
        t.id = todo.id → t = updatedTodoOf todo) ∧
    (toggleTodo todos summary todo (.ok ())).errorSurfaced = false := by
  refine ⟨?_, ?_, rfl⟩
  · obtain ⟨t, ht, hid⟩ := List.mem_map.1 h
    simp only [toggleTodo]
    exact List.mem_map.2 ⟨t, ht, by simp [hid]⟩
  · intro t ht hid
    simp only [toggleTodo] at ht
    obtain ⟨s, _, hs⟩ := List.mem_map.1 ht
    by_cases hcase : s.id = todo.id
    · rw [← hs]
      simp [hcase]
    · exfalso
      rw [← hs] at hid
      simp only [beq_iff_eq, hcase, if_false] at hid

def sampleTodo : Todo := ⟨"1", "buy milk", "buy milk", false, "2024-01-01T00:00:00Z"⟩

theorem toggleTodo_optimistic_witness :
    updatedTodoOf sampleTodo ∈
      (toggleTodo [sampleTodo] emptySummary sampleTodo (.ok ())).todos ∧
    (∀ t ∈ (toggleTodo [sampleTodo] emptySummary sampleTodo (.ok ())).todos,
        t.id = sampleTodo.id → t = updatedTodoOf sampleTodo) ∧
    (toggleTodo [sampleTodo] emptySummary sampleTodo (.ok ())).errorSurfaced = false :=
  toggleTodo_optimistic [sampleTodo] emptySummary sampleTodo (by simp)

/-- C5: a thrown mutation leaves the cache and summary exactly as they were,
for both the toggle/update path and the delete path, and surfaces the error
alert to the user. -/
theorem failed_mutation_leaves_cache (todos : List Todo) (summary : TodoSummary)
    (todo : Todo) (todoId : String) :
    toggleTodo todos summary todo (.error ()) = ⟨todos, summary, true⟩ ∧
    deleteTodo todos summary todoId (.error ()) = ⟨todos, summary, true⟩ :=
  ⟨rfl, rfl⟩

/-- The cache-state mutation of the update success path of toggleTodo,
generalized over the written payload: setTodos maps the matching id to the
new document, setSummary recounts completion over the old list with the new
document substituted.  With `key = todo.id` and `u = updatedTodoOf todo` this
is exactly what toggleTodo does on success. -/
def updateCache (key : String) (u : Todo) (st : List Todo × TodoSummary) :
    List Todo × TodoSummary :=
  let todos := st.1
  let newTodos := todos.map (fun t => if t.id == key then u else t)
  let completed :=
    (todos.filter (fun t => if t.id == key then u.completed else t.completed)).length
  (newTodos,
   ⟨(todos.length : Int), (completed : Int),
    (todos.length : Int) - (completed : Int)⟩)

/-- Helper: toggleTodo on success is updateCache at the toggled key and
payload. -/
theorem toggleTodo_eq_updateCache (todos : List Todo) (summary : TodoSummary)
    (todo : Todo) :
    toggleTodo todos summary todo (.ok ()) =
      ⟨(updateCache todo.id (updatedTodoOf todo) (todos, summary)).1,
       (updateCache todo.id (updatedTodoOf todo) (todos, summary)).2,
       false⟩ := rfl

/-- Helper: mapping by a function that leaves the filter predicate unchanged
preserves the length of the filtered list. -/
theorem filter_length_map_of (f : Todo → Todo) (p : Todo → Bool)
    (hp : ∀ t, p (f t) = p t) (l : List Todo) :
    ((l.map f).filter p).length = (l.filter p).length := by
  induction l with
  | nil => rfl
  | cons hd tl ih =>
    cases hph : p hd <;> simp [List.filter_cons, hp hd, hph, ih]

/-- C8: the update cache mutation is idempotent — applying it twice with the
same key and payload yields the same cache state as applying it once. -/
theorem updateCache_idem (key : String) (u : Todo) (st : List Todo × TodoSummary) :
    updateCache key u (updateCache key u st) = updateCache key u st := by
  obtain ⟨todos, summary⟩ := st
  have hff : ∀ t : Todo,
      (fun s => if s.id == key then u else s)
        ((fun s => if s.id == key then u else s) t)
      = (fun s => if s.id == key then u else s) t := by
    intro t
    by_cases hcase : t.id = key <;> simp [hcase]
  have hpp : ∀ t : Todo,
      (fun s => if s.id == key then u.completed else s.completed)
        ((fun s => if s.id == key then u else s) t)
      = (fun s => if s.id == key then u.completed else s.completed) t := by
    intro t
    by_cases hcase : t.id = key <;> simp [hcase]
  have hmap : (todos.map (fun s => if s.id == key then u else s)).map
      (fun s => if s.id == key then u else s)
      = todos.map (fun s => if s.id == key then u else s) := by
    rw [List.map_map]
    exact List.map_congr_left (fun t _ => hff t)
  have hlen : (todos.map (fun s => if s.id == key then u else s)).length
      = todos.length := by simp
  have hcnt := filter_length_map_of (fun s => if s.id == key then u else s)
      (fun s => if s.id == key then u.completed else s.completed) hpp todos
  simp only [updateCache]
  rw [hmap, hlen, hcnt]

/-- Result of one confirmation-poll query: `.error` models a thrown query
(caught and only logged inside the loop), `.ok none` a response without a
documents field, `.ok (some keys)` the ids of the listed documents. -/
abbrev PollResult := Except Unit (Option (List String))

/-- The confirmation-wait loop of addTodo:

    while retries < maxRetries: query; break when todoId is listed;
    retries++; if retries < maxRetries then sleep delay.

`remaining` is `maxRetries - retries`; the result is the total number of
queries issued (when started at retries = 0) and the chronological list of
sleep durations. -/
def pollForKey (todoId : String) (poll : Nat → PollResult) (delay : Nat) :
    Nat → Nat → Nat × List Nat
  | retries, 0 => (retries, [])
  | retries, remaining + 1 =>
    let found : Bool :=
      match poll retries with
      | .error _ => false
      | .ok none => false
      | .ok (some keys) => keys.contains todoId
    if found then (retries + 1, [])
    else
      let rest := pollForKey todoId poll delay (retries + 1) remaining
      if 0 < remaining then (rest.1, delay :: rest.2) else (rest.1, rest.2)

/-- Observable outcome of an addTodo run. -/
structure AddTodoOutcome where
  errorSurfaced : Bool
  pollCount : Nat
  sleeps : List Nat
  finalRefreshDone : Bool
deriving Repr, DecidableEq

/-- addTodo past its input guard: execute the Set mutation; on success run the
confirmation poll with maxRetries = 10 and delay = 2000 ms and then one
unconditional fetchTodos; when the mutation throws, alert the user and skip
both the poll and the refresh. -/
def addTodo (executeResult : Except Unit Unit) (todoId : String)
    (poll : Nat → PollResult) : AddTodoOutcome :=
  match executeResult with
  | .error _ => ⟨true, 0, [], false⟩
  | .ok _ =>
    let pr := pollForKey todoId poll 2000 0 10
    ⟨false, pr.1, pr.2, true⟩

/-- Helper: the poll loop issues at most `remaining` further queries. -/
theorem pollForKey_count_le (todoId : String) (poll : Nat → PollResult)
    (delay : Nat) :
    ∀ remaining retries,
      (pollForKey todoId poll delay retries remaining).1 ≤ retries + remaining := by
  intro remaining
  induction remaining with
  | zero => intro retries; simp [pollForKey]
  | succ m ih =>
    intro retries
    simp only [pollForKey]
    split
    · omega
    · have h := ih (retries + 1)
      split <;> simpa [Nat.add_assoc, Nat.add_comm, Nat.add_left_comm] using h

/-- Helper: every sleep of the poll loop lasts exactly `delay` ms. -/
theorem pollForKey_sleeps_delay (todoId : String) (poll : Nat → PollResult)
    (delay : Nat) :
    ∀ remaining retries d, d ∈ (pollForKey todoId poll delay retries remaining).2 →
      d = delay := by
  intro remaining
  induction remaining with
  | zero => intro retries d hd; simp [pollForKey] at hd
  | succ m ih =>
    intro retries d hd
    simp only [pollForKey] at hd
    rcases hmatch : (match poll retries with
      | .error _ => false
      | .ok none => false
      | .ok (some keys) => keys.contains todoId : Bool) with _ | _
    · rw [hmatch] at hd
      simp only [Bool.false_eq_true, if_false] at hd
      by_cases hrem : 0 < m
      · simp only [hrem, if_true, List.mem_cons] at hd
        rcases hd with rfl | hd
        · rfl
        · exact ih (retries + 1) d hd
      · simp only [hrem, if_false] at hd
        exact ih (retries + 1) d hd
    · rw [hmatch] at hd
      simp at hd

/-- C3: after a successful Set mutation, addTodo issues at most 10
confirmation polls, each separated by a 2000 ms sleep, then always performs
the final unconditional refresh and surfaces no error; an error is surfaced
exactly when the mutation call itself throws. -/
theorem addTodo_bounded_polling (todoId : String) (poll : Nat → PollResult) :
    (addTodo (.ok ()) todoId poll).pollCount ≤ 10 ∧
    ((addTodo (.ok ()) todoId poll).sleeps.all (fun d => d == 2000)) = true ∧
    (addTodo (.ok ()) todoId poll).errorSurfaced = false ∧
    (addTodo (.ok ()) todoId poll).finalRefreshDone = true ∧
    (addTodo (.error ()) todoId poll).errorSurfaced = true ∧
    (addTodo (.error ()) todoId poll).finalRefreshDone = false := by
  refine ⟨?_, ?_, rfl, rfl, rfl, rfl⟩
  · simpa using pollForKey_count_le todoId poll 2000 10 0
  · rw [List.all_eq_true]
    intro d hd
    exact beq_iff_eq.2 (pollForKey_sleeps_delay todoId poll 2000 10 0 d hd)

/-- The generic retry helper modelled on its observable behaviour.  The
operation is a function from invocation index to outcome; the run returns the
value returned or the error finally rethrown (`.error none` is the
`throw lastError` with lastError still null, reachable only when maxRetries
is 0), the number of invocations made, and the chronological backoff sleeps. -/
def retryGo {E A : Type} (op : Nat → Except E A) (delay : Nat) :
    Nat → Nat → Option E → Except (Option E) A × Nat × List Nat
  | i, 0, lastError => (.error lastError, i, [])
  | i, remaining + 1, _ =>
    match op i with
    | .ok a => (.ok a, i + 1, [])
    | .error e =>
      if 0 < remaining then
        ((retryGo op delay (i + 1) remaining (some e)).1,
         (retryGo op delay (i + 1) remaining (some e)).2.1,
         delay * 2 ^ i :: (retryGo op delay (i + 1) remaining (some e)).2.2)
      else retryGo op delay (i + 1) remaining (some e)

/-- Helper: one unfolding step of retryGo. -/
theorem retryGo_succ {E A : Type} (op : Nat → Except E A) (delay : Nat)
    (i remaining : Nat) (last : Option E) :
    retryGo op delay i (remaining + 1) last =
      match op i with
      | .ok a => (.ok a, i + 1, [])
      | .error e =>
        if 0 < remaining then
          ((retryGo op delay (i + 1) remaining (some e)).1,
           (retryGo op delay (i + 1) remaining (some e)).2.1,
           delay * 2 ^ i :: (retryGo op delay (i + 1) remaining (some e)).2.2)
        else retryGo op delay (i + 1) remaining (some e) := rfl

/-- retryOperation:

    for i in 0...maxRetries: try return op(); catch: lastError = e;
      if i < maxRetries - 1 then sleep(delay * 2^i)
    throw lastError -/
def retryOperation {E A : Type} (op : Nat → Except E A)
    (maxRetries delay : Nat) : Except (Option E) A × Nat × List Nat :=
  retryGo op delay 0 maxRetries none

/-- Helper: a run whose m+1 attempts all fail rethrows the last error after
m+1 invocations, with backoff sleeps delay * 2^i between consecutive
attempts. -/
theorem retryGo_all_fail {E A : Type} (op : Nat → Except E A) (d : Nat)
    (e : Nat → E) :
    ∀ (m i : Nat) (last : Option E),
      (∀ j, j < m + 1 → op (i + j) = Except.error (e (i + j))) →
      retryGo op d i (m + 1) last =
        (Except.error (some (e (i + m))), i + m + 1,
         (List.range m).map (fun k => d * 2 ^ (i + k))) := by
  intro m
  induction m with
  | zero =>
    intro i last h
    have h0 : op i = Except.error (e i) := by simpa using h 0 (by omega)
    rw [retryGo_succ, h0]
    rfl
  | succ m ih =>
    intro i last h
    have h0 : op i = Except.error (e i) := by simpa using h 0 (by omega)
    have hrest := ih (i + 1) (some (e i)) (fun j hj => by
      have hh := h (j + 1) (by omega)
      have heq : i + (j + 1) = i + 1 + j := by omega
      rw [heq] at hh
      exact hh)
    rw [retryGo_succ, h0]
    dsimp only
    rw [if_pos (Nat.succ_pos m), hrest]
    simp only [Prod.mk.injEq]
    refine ⟨?_, by omega, ?_⟩
    · rw [show i + 1 + m = i + (m + 1) from by omega]
    · rw [List.range_succ_eq_map, List.map_cons, List.map_map]
      refine congrArg₂ List.cons (by rw [Nat.add_zero]) ?_
      apply List.map_congr_left
      intro k _
      simp only [Function.comp_apply]
      rw [show i + (k + 1) = i + 1 + k from by omega]

/-- Helper: a run whose first k attempts fail and whose attempt k succeeds
returns that value after k+1 invocations, with the k backoff sleeps. -/
theorem retryGo_success {E A : Type} (op : Nat → Except E A) (d : Nat)
    (e : Nat → E) (a : A) :
    ∀ (k remaining i : Nat) (last : Option E), k < remaining →
      op (i + k) = Except.ok a →
      (∀ j, j < k → op (i + j) = Except.error (e (i + j))) →
      retryGo op d i remaining last =
        (Except.ok a, i + k + 1, (List.range k).map (fun j => d * 2 ^ (i + j))) := by
  intro k
  induction k with
  | zero =>
    intro remaining i last hlt hok hfail
    match remaining, hlt with
    | r + 1, _ =>
      have h0 : op i = Except.ok a := by simpa using hok
      rw [retryGo_succ, h0]
      rfl
  | succ k ih =>
    intro remaining i last hlt hok hfail
    match remaining, hlt with
    | r + 1, hlt =>
      have h0 : op i = Except.error (e i) := by simpa using hfail 0 (by omega)
      have hklt : k < r := by omega
      have hok2 : op (i + 1 + k) = Except.ok a := by
        have heq : i + 1 + k = i + (k + 1) := by omega
        rw [heq]; exact hok
      have hrest := ih r (i + 1) (some (e i)) hklt hok2 (fun j hj => by
        have hh := hfail (j + 1) (by omega)
        have heq : i + (j + 1) = i + 1 + j := by omega
        rw [heq] at hh
        exact hh)
      have hr0 : 0 < r := by omega
      rw [retryGo_succ, h0]
      dsimp only
      rw [if_pos hr0, hrest]
      simp only [Prod.mk.injEq]
      refine ⟨by trivial, by omega, ?_⟩
      rw [List.range_succ_eq_map, List.map_cons, List.map_map]
      refine congrArg₂ List.cons (by rw [Nat.add_zero]) ?_
      apply List.map_congr_left
      intro j _
      simp only [Function.comp_apply]
      rw [show i + (j + 1) = i + 1 + j from by omega]

/-- C7: retryOperation invokes the operation up to n times, sleeps
d * 2^i after the i-th failed attempt when another attempt remains, returns
the first successful result, and after n failures rethrows the error of the
last attempt. -/
theorem retryOperation_correct {E A : Type} (op : Nat → Except E A)
    (n d : Nat) (hn : 1 ≤ n) (e : Nat → E) (i : Nat) (a : A) :
    ((∀ j, j < n → op j = Except.error (e j)) →
      retryOperation op n d =
        (Except.error (some (e (n - 1))), n,
         (List.range (n - 1)).map (fun k => d * 2 ^ k))) ∧
    (i < n → op i = Except.ok a → (∀ j, j < i → op j = Except.error (e j)) →
      retryOperation op n d =
        (Except.ok a, i + 1, (List.range i).map (fun k => d * 2 ^ k))) := by
  constructor
  · intro h
    obtain ⟨m, rfl⟩ : ∃ m, n = m + 1 := ⟨n - 1, by omega⟩
    have := retryGo_all_fail op d e m 0 none (fun j hj => by simpa using h j hj)
    simpa [retryOperation] using this
  · intro hlt hok hfail
    have := retryGo_success op d e a i n 0 none hlt (by simpa using hok)
      (fun j hj => by simpa using hfail j hj)
    simpa [retryOperation] using this

def c7Op : Nat → Except Nat Nat := fun j => if j == 1 then .ok 42 else .error j

theorem retryOperation_correct_witness :
    retryOperation c7Op 3 100 = (Except.ok 42, 2, [100]) := by
  have h := (retryOperation_correct c7Op 3 100 (by omega) (fun j => j) 1 42).2
    (by omega) rfl (fun j hj => by
      match j, hj with
      | 0, _ => rfl)
  simpa [List.range_succ] using h

/-- The environment-supplied contract addresses the app reads at module init.
`none` models an unset variable; JS also treats the empty string as falsy. -/
structure Env where
  userMapAddr : Option String
  docuStoreAddr : Option String
  treasuryAddr : Option String
deriving Repr, DecidableEq

/-- JS truthiness test of `!process.env.X`: missing or empty is falsy. -/
def envFalsy : Option String → Bool
  | none => true
  | some s => s.isEmpty

/-- Module-init guards of index.tsx: first the user-map address, then the
docustore address. -/
def indexInit (env : Env) : Except String Unit :=
  if envFalsy env.userMapAddr then
    .error "EXPO_PUBLIC_USER_MAP_CONTRACT_ADDRESS is not set in your environment file"
  else if envFalsy env.docuStoreAddr then
    .error "EXPO_PUBLIC_DOCUSTORE_CONTRACT_ADDRESS is not set in your environment file"
  else .ok ()

/-- Module-init guard of profile.tsx: only the docustore address. -/
def profileInit (env : Env) : Except String Unit :=
  if envFalsy env.docuStoreAddr then
    .error "EXPO_PUBLIC_DOCUSTORE_CONTRACT_ADDRESS is not set in your environment file"
  else .ok ()

/-- Module-init guard of settings.tsx: only the docustore address. -/
def settingsInit (env : Env) : Except String Unit :=
  if envFalsy env.docuStoreAddr then
    .error "EXPO_PUBLIC_DOCUSTORE_CONTRACT_ADDRESS is not set in your environment file"
  else .ok ()

/-- Startup: loading the three tab modules runs all three guards; the first
throw is fatal. -/
def appStartup (env : Env) : Except String Unit := do
  indexInit env
  profileInit env
  settingsInit env

/-- C9 fails on the code: with the document-store address and the treasury
address both present, startup still throws, because the guard that actually
runs checks the user-map contract address; and with the treasury address
absent but the user-map and docustore addresses present, startup does not
throw at all. -/
theorem startup_checks_userMap_not_treasury :
    appStartup ⟨none, some "xion1docustore", some "xion1treasury"⟩ =
      Except.error
        "EXPO_PUBLIC_USER_MAP_CONTRACT_ADDRESS is not set in your environment file" ∧
    appStartup ⟨some "xion1usermap", some "xion1docustore", none⟩ = Except.ok () := by
  constructor <;> rfl

/-- C9 amended: the addresses whose absence (or emptiness) is fatal at module
init are the user-map contract address and the document-store contract
address; startup succeeds exactly when both are set and non-empty, and the
treasury address plays no part in the startup guards. -/
theorem startup_guard_correct (env : Env) :
    (appStartup env = .ok () ↔
      (envFalsy env.userMapAddr = false ∧ envFalsy env.docuStoreAddr = false)) ∧
    (∀ t, appStartup { env with treasuryAddr := t } = appStartup env) := by
  constructor
  · cases hu : envFalsy env.userMapAddr <;> cases hd : envFalsy env.docuStoreAddr <;>
      simp [appStartup, indexInit, profileInit, settingsInit, hu, hd, Bind.bind, Except.bind]
  · intro t
    cases hu : envFalsy env.userMapAddr <;> cases hd : envFalsy env.docuStoreAddr <;>
      simp [appStartup, indexInit, profileInit, settingsInit, hu, hd, Bind.bind, Except.bind]

/-- The summary invariant claimed: completed + pending = total, total is the
cache size, completed counts the completed cached todos. -/
def summaryConsistent (todos : List Todo) (s : TodoSummary) : Prop :=
  s.completed + s.pending = s.total ∧
  s.total = (todos.length : Int) ∧
  s.completed = ((todos.filter (fun t => t.completed)).length : Int)

/-- Helper: splitting a list by a key predicate preserves total length. -/
theorem filter_id_split (todoId : String) (l : List Todo) :
    (l.filter (fun t => t.id != todoId)).length
      + (l.filter (fun t => t.id == todoId)).length = l.length := by
  induction l with
  | nil => rfl
  | cons hd tl ih =>
    simp only [List.filter_cons, bne] at ih ⊢
    cases hph : hd.id == todoId <;> simp [hph] <;> omega

/-- Helper: the conjunction filter of deleteTodo equals filtering the kept
list by completion. -/
theorem filter_delete_completed (todoId : String) (l : List Todo) :
    (l.filter (fun t => t.id != todoId && t.completed)).length
      = ((l.filter (fun t => t.id != todoId)).filter (fun t => t.completed)).length := by
  induction l with
  | nil => rfl
  | cons hd tl ih =>
    cases hne : (hd.id != todoId) <;> cases hc : hd.completed <;>
      simp [List.filter_cons, hne, hc, ih]

/-- Helper: filtering a mapped list equals filtering the original by the
transported predicate. -/
theorem length_filter_map_pointwise (f : Todo → Todo) (p q : Todo → Bool)
    (h : ∀ t, p (f t) = q t) (l : List Todo) :
    ((l.map f).filter p).length = (l.filter q).length := by
  induction l with
  | nil => rfl
  | cons hd tl ih =>
    cases hq : q hd <;> simp [List.filter_cons, h hd, hq, ih]

/-- C10: after a successful refresh, a successful toggle, and a successful
delete of a key present exactly once in the cache, the rewritten summary
satisfies completed + pending = total, total is the cache size, and completed
counts the completed cached todos. -/
theorem summary_invariant (getTime : String → Int) (qr : Except Unit QueryResponse)
    (todos : List Todo) (summary : TodoSummary) (todo : Todo) (todoId : String)
    (hone : (todos.filter (fun t => t.id == todoId)).length = 1) :
    summaryConsistent (fetchTodos getTime qr).1 (fetchTodos getTime qr).2 ∧
    summaryConsistent (toggleTodo todos summary todo (.ok ())).todos
        (toggleTodo todos summary todo (.ok ())).summary ∧
    summaryConsistent (deleteTodo todos summary todoId (.ok ())).todos
        (deleteTodo todos summary todoId (.ok ())).summary := by
  refine ⟨?_, ?_, ?_⟩
  · rcases qr with _ | r
    · simp [fetchTodos, emptySummary, summaryConsistent]
    · rcases r with _ | docs
      · simp [fetchTodos, emptySummary, summaryConsistent]
      · rcases hpd : parseDocs docs with _ | l
        · simp [fetchTodos, hpd, emptySummary, summaryConsistent]
        · simp only [fetchTodos, hpd, summaryConsistent]
          refine ⟨by ring, by trivial, by trivial⟩
  · simp only [toggleTodo, summaryConsistent]
    refine ⟨by ring, by simp, ?_⟩
    have h := length_filter_map_pointwise
      (fun t => if t.id == todo.id then updatedTodoOf todo else t)
      (fun t => t.completed)
      (fun t => if t.id == todo.id then (updatedTodoOf todo).completed else t.completed)
      (fun t => by by_cases hc : t.id = todo.id <;> simp [hc])
      todos
    rw [h]
  · simp only [deleteTodo, summaryConsistent]
    have hsplit := filter_id_split todoId todos
    have hdel := filter_delete_completed todoId todos
    refine ⟨by ring, by omega, by rw [hdel]⟩

def c10Todo : Todo := ⟨"1", "alpha", "alpha", true, "2024-01-02T00:00:00Z"⟩

def c10Todos : List Todo :=
  [c10Todo, ⟨"2", "beta", "beta", false, "2024-01-01T00:00:00Z"⟩]

theorem summary_invariant_witness :
    summaryConsistent (fetchTodos (fun _ => 0) (.error ())).1
        (fetchTodos (fun _ => 0) (.error ())).2 ∧
    summaryConsistent (toggleTodo c10Todos emptySummary c10Todo (.ok ())).todos
        (toggleTodo c10Todos emptySummary c10Todo (.ok ())).summary ∧
    summaryConsistent (deleteTodo c10Todos emptySummary "1" (.ok ())).todos
        (deleteTodo c10Todos emptySummary "1" (.ok ())).summary :=
  summary_invariant (fun _ => 0) (.error ()) c10Todos emptySummary c10Todo "1"
    (by decide)
